import Mathlib

/-!
Shallow embedding of the trade analytics engine of the FX trading-journal
repository (module src/data_manager.py: classes TradeAnalyzer and
StrategyManager), together with theorems settling the frozen claims about
it.

Modelling conventions:
- A pandas DataFrame row becomes a `Trade` record; the columns the claims
  touch are carried explicitly. Money and pips are `Rat` (the source holds
  floats and only adds, compares and divides them).
- `date` is an `Int` ordinal: only its order matters to the source
  (sorting and range filters).
- `float('inf')` for the profit factor is the explicit constructor
  `PFValue.infinity`; every other value is `PFValue.value q`.
- `calculate_metrics` returns `{}` on an empty frame; the model returns
  `none` (an `Option Metrics`), `none` standing for the empty dict.
- `sort_values('date')` is modelled by a stable insertion sort on the
  `date` key (`sortByDate`); on date ties pandas' default quicksort may
  order rows differently, which no settled claim depends on.
-/

namespace FX

/-- One trade record: a row of the analyzer's DataFrame, restricted to the
columns the analytics code reads. -/
structure Trade where
  trade_id : Nat
  date : Int
  hour : Nat
  net_profit_loss_jpy : Rat
  pips : Rat
  currency_pair : String
  type : String
  strategy : Option String
  deriving Repr, DecidableEq

/-- Column is_win of _prepare_data: net_profit_loss_jpy > 0. -/
def is_win (t : Trade) : Bool :=
  decide (0 < t.net_profit_loss_jpy)

/-- Stable insertion of a trade into a date-sorted list: the new trade is
placed before the first strictly later-or-equal date, so earlier list
positions win ties. -/
def insertByDate (t : Trade) : List Trade → List Trade
  | [] => [t]
  | u :: us => if t.date ≤ u.date then t :: u :: us else u :: insertByDate t us

/-- Model of df.sort_values('date') in _prepare_data. -/
def sortByDate (l : List Trade) : List Trade :=
  l.foldr insertByDate []

/-- Model of pandas Series.cumsum with a running accumulator. -/
def cumsumFrom (acc : Rat) : List Rat → List Rat
  | [] => []
  | x :: xs => (acc + x) :: cumsumFrom (acc + x) xs

/-- Model of pandas Series.cumsum. -/
def cumsum (l : List Rat) : List Rat :=
  cumsumFrom 0 l

/-- Model of pandas Series.cummax after the first element. -/
def cummaxFrom (m : Rat) : List Rat → List Rat
  | [] => []
  | x :: xs => max m x :: cummaxFrom (max m x) xs

/-- Model of pandas Series.cummax. -/
def cummax : List Rat → List Rat
  | [] => []
  | x :: xs => x :: cummaxFrom x xs

/-- Model of pandas Series.min on the nonempty series the source feeds it;
the empty case (never reached by the source) is mapped to 0. -/
def minList : List Rat → Rat
  | [] => 0
  | x :: xs => xs.foldl min x

/-- TradeAnalyzer._get_market_session, translated branch for branch from
the Python if/elif chain (hour of start_time, UTC+9). -/
def get_market_session (hour : Nat) : String :=
  if 9 ≤ hour ∧ hour < 15 then "東京"
  else if 16 ≤ hour ∧ hour < 24 then "ロンドン"
  else if (0 ≤ hour ∧ hour < 6) ∨ (22 ≤ hour ∧ hour < 24) then "ニューヨーク"
  else "その他"

/-- Value of the profit_factor entry: the source stores either a float or
float('inf'). -/
inductive PFValue where
  | infinity : PFValue
  | value : Rat → PFValue
  deriving Repr, DecidableEq

/-- The dict returned by TradeAnalyzer.calculate_metrics on a nonempty
frame, one field per key. -/
structure Metrics where
  total_trades : Nat
  winning_trades : Nat
  losing_trades : Nat
  win_rate : Rat
  profit_factor : PFValue
  avg_pips : Rat
  max_drawdown : Rat
  total_net_profit : Rat
  total_profit : Rat
  total_loss : Rat
  deriving Repr, DecidableEq

/-- Local winning_trades of calculate_metrics: len(df[df.is_win]). -/
def winningCount (df : List Trade) : Nat :=
  (df.filter is_win).length

/-- Local total_profit of calculate_metrics: sum of net P&L over winning
rows. -/
def totalProfit (df : List Trade) : Rat :=
  ((df.filter is_win).map Trade.net_profit_loss_jpy).sum

/-- Local total_loss of calculate_metrics: abs of the sum of net P&L over
non-winning rows. -/
def totalLoss (df : List Trade) : Rat :=
  |((df.filter (fun t => !is_win t)).map Trade.net_profit_loss_jpy).sum|

/-- Column cumulative_profit of _prepare_data: cumsum of net P&L over the
date-sorted frame. -/
def cumulativeProfit (df : List Trade) : List Rat :=
  cumsum (df.map Trade.net_profit_loss_jpy)

/-- Local max_drawdown of calculate_metrics: abs of the minimum of
(cumulative - running max of cumulative). -/
def maxDrawdown (df : List Trade) : Rat :=
  let cumulative := cumulativeProfit df
  |minList (List.zipWith (fun a b => a - b) cumulative (cummax cumulative))|

/-- TradeAnalyzer.calculate_metrics. The analyzer's self.df is the input
sorted ascending by date (_prepare_data); an empty frame returns the empty
dict, modelled as none. -/
def calculate_metrics (trades : List Trade) : Option Metrics :=
  if trades.isEmpty then none
  else
    some
      { total_trades := (sortByDate trades).length
        winning_trades := winningCount (sortByDate trades)
        losing_trades := (sortByDate trades).length - winningCount (sortByDate trades)
        win_rate :=
          if 0 < (sortByDate trades).length then
            (winningCount (sortByDate trades) : Rat) / ((sortByDate trades).length : Rat) * 100
          else 0
        profit_factor :=
          if 0 < totalLoss (sortByDate trades) then
            PFValue.value (totalProfit (sortByDate trades) / totalLoss (sortByDate trades))
          else PFValue.infinity
        avg_pips :=
          ((sortByDate trades).map Trade.pips).sum / ((sortByDate trades).length : Rat)
        max_drawdown := maxDrawdown (sortByDate trades)
        total_net_profit := ((sortByDate trades).map Trade.net_profit_loss_jpy).sum
        total_profit := totalProfit (sortByDate trades)
        total_loss := totalLoss (sortByDate trades) }

/-- Python str.strip(): whitespace removed from both ends. Written over
the character list so that it evaluates by kernel reduction, which Lean's
own String.trim does not. -/
def pyStrip (s : String) : String :=
  String.mk (((s.data.dropWhile Char.isWhitespace).reverse.dropWhile
    Char.isWhitespace).reverse)

/-- Python str.lower(), written over the character list. -/
def pyLower (s : String) : String :=
  String.mk (s.data.map Char.toLower)

/-- Row filter of analyze_by_strategy (lines 477-479): strategy is not
null, does not strip to the empty string, and does not lower-case to the
token nan. -/
def validStrategyRow (t : Trade) : Bool :=
  match t.strategy with
  | none => false
  | some s => decide (pyStrip s ≠ "") && decide (pyLower s ≠ "nan")

/-- Numpy-style rounding of a rational to the nearest integer, ties to
even (pandas DataFrame.round(0) semantics). -/
def roundHalfEven (q : Rat) : Int :=
  let n := ⌊q⌋
  let frac := q - n
  if frac < 1/2 then n
  else if 1/2 < frac then n + 1
  else if n % 2 = 0 then n else n + 1

/-- Pandas round(2): round half to even at two decimal places. -/
def round2 (q : Rat) : Rat :=
  (roundHalfEven (q * 100) : Rat) / 100

/-- One row of the grouped table of analyze_by_strategy: the five
aggregated columns, after rounding. -/
structure StrategyStats where
  sum_pl : Rat
  mean_pl : Rat
  count : Nat
  mean_pips : Rat
  win_rate : Rat
  deriving Repr, DecidableEq

/-- Aggregation of one strategy group: sum, mean, count of net P&L, mean
pips, and win rate (mean of is_win, rounded, then scaled to percent and
rounded again), as in lines 484-491. -/
def groupStats (rows : List Trade) (key : String) : StrategyStats :=
  let g := rows.filter (fun t => t.strategy = some key)
  let n := g.length
  { sum_pl := round2 ((g.map Trade.net_profit_loss_jpy).sum)
    mean_pl := round2 ((g.map Trade.net_profit_loss_jpy).sum / (n : Rat))
    count := n
    mean_pips := round2 ((g.map Trade.pips).sum / (n : Rat))
    win_rate := round2 (round2 (((g.filter is_win).length : Rat) / (n : Rat)) * 100) }

/-- Stable ascending insertion on strings, used for pandas groupby's
sorted group keys. -/
def insertKey (s : String) : List String → List String
  | [] => [s]
  | k :: ks => if s ≤ k then s :: k :: ks else k :: insertKey s ks

/-- Ascending sort of group keys (pandas groupby sorts keys). -/
def sortKeys (l : List String) : List String :=
  l.foldr insertKey []

/-- Stable descending insertion by the summed net P&L column, used for
sort_values ascending=False. -/
def insertDesc (x : String × StrategyStats) :
    List (String × StrategyStats) → List (String × StrategyStats)
  | [] => [x]
  | y :: ys => if y.2.sum_pl ≤ x.2.sum_pl then x :: y :: ys else y :: insertDesc x ys

/-- TradeAnalyzer.analyze_by_strategy: drop rows with null/blank/nan
strategy, return the empty frame when nothing is left, else group by the
strategy value and sort descending by summed net P&L. -/
def analyze_by_strategy (trades : List Trade) : List (String × StrategyStats) :=
  let df := sortByDate trades
  let df_valid := df.filter validStrategyRow
  if df_valid.isEmpty then []
  else
    let keys := sortKeys (df_valid.filterMap Trade.strategy).dedup
    (keys.map (fun k => (k, groupStats df_valid k))).foldr insertDesc []

/-- Mutable locals of the scan loop of get_consecutive_losses. A recorded
streak is (count, total_loss, member trades). -/
structure StreakState where
  max_consecutive : Nat
  current_consecutive : Nat
  max_loss_amount : Rat
  current_loss_amount : Rat
  loss_streaks : List (Nat × Rat × List Trade)
  current_streak : List Trade
  deriving Repr

/-- Initial loop state of get_consecutive_losses. -/
def initStreakState : StreakState :=
  { max_consecutive := 0, current_consecutive := 0, max_loss_amount := 0
    current_loss_amount := 0, loss_streaks := [], current_streak := [] }

/-- The local s1 inside the streak-closing code: take over the current
streak as the maximum when it is strictly longer than the recorded one. -/
def updateMax (s : StreakState) : StreakState :=
  if s.max_consecutive < s.current_consecutive then
    { s with max_consecutive := s.current_consecutive
             max_loss_amount := s.current_loss_amount }
  else s

/-- Closing of the current loss streak (the body under the winning-trade
branch and the after-loop epilogue of get_consecutive_losses): update the
maximum, record streaks of length at least 3. -/
def closeStreak (s : StreakState) : StreakState :=
  if 0 < s.current_consecutive then
    if 3 ≤ s.current_consecutive then
      { updateMax s with loss_streaks :=
          (updateMax s).loss_streaks ++
            [(s.current_consecutive, s.current_loss_amount, s.current_streak)] }
    else updateMax s
  else s

/-- One iteration of the scan loop of get_consecutive_losses. -/
def streakStep (s : StreakState) (t : Trade) : StreakState :=
  if !is_win t then
    { s with current_consecutive := s.current_consecutive + 1
             current_loss_amount := s.current_loss_amount + |t.net_profit_loss_jpy|
             current_streak := s.current_streak ++ [t] }
  else
    { closeStreak s with current_consecutive := 0, current_loss_amount := 0
                         current_streak := [] }

/-- TradeAnalyzer.get_consecutive_losses: linear scan over the date-sorted
trades; returns (max_consecutive, max_loss_amount, loss_streaks). -/
def get_consecutive_losses (trades : List Trade) :
    Nat × Rat × List (Nat × Rat × List Trade) :=
  if trades.isEmpty then (0, 0, [])
  else
    let final := closeStreak ((sortByDate trades).foldl streakStep initStreakState)
    (final.max_consecutive, final.max_loss_amount, final.loss_streaks)

/-- The filters dict of get_filtered_trades. A field is none when the key
is absent or its Python value is falsy in the way the claims exercise
(None); the categorical strings carry the raw dict value, including the
sentinel すべて and the falsy empty string. -/
structure Filters where
  currency_pair : Option String
  type : Option String
  strategy : Option String
  date_range : Option (Int × Int)
  profit_range : Option (Rat × Rat)
  only_losses : Option Bool
  deriving Repr

/-- Currency-pair stage of get_filtered_trades: skipped when the key is
absent, the value falsy (empty string) or the sentinel すべて. -/
def filterCurrencyPair (sel : Option String) (df : List Trade) : List Trade :=
  match sel with
  | none => df
  | some s =>
      if s ≠ "" ∧ s ≠ "すべて" then df.filter (fun t => t.currency_pair = s) else df

/-- Type stage of get_filtered_trades, same skip rule as the pair stage. -/
def filterType (sel : Option String) (df : List Trade) : List Trade :=
  match sel with
  | none => df
  | some s => if s ≠ "" ∧ s ≠ "すべて" then df.filter (fun t => t.type = s) else df

/-- Strategy stage of get_filtered_trades; a null strategy cell never
equals the selected string. -/
def filterStrategy (sel : Option String) (df : List Trade) : List Trade :=
  match sel with
  | none => df
  | some s => if s ≠ "" ∧ s ≠ "すべて" then df.filter (fun t => t.strategy = some s) else df

/-- Date-range stage of get_filtered_trades: inclusive on both ends, no
validation of the pair. -/
def filterDateRange (sel : Option (Int × Int)) (df : List Trade) : List Trade :=
  match sel with
  | none => df
  | some r => df.filter (fun t => r.1 ≤ t.date ∧ t.date ≤ r.2)

/-- Profit-range stage of get_filtered_trades: inclusive on both ends. -/
def filterProfitRange (sel : Option (Rat × Rat)) (df : List Trade) : List Trade :=
  match sel with
  | none => df
  | some r =>
      df.filter (fun t => r.1 ≤ t.net_profit_loss_jpy ∧ t.net_profit_loss_jpy ≤ r.2)

/-- Only-losses stage of get_filtered_trades: filters when the flag is
present and truthy. -/
def filterOnlyLosses (sel : Option Bool) (df : List Trade) : List Trade :=
  match sel with
  | none => df
  | some b => if b then df.filter (fun t => !is_win t) else df

/-- TradeAnalyzer.get_filtered_trades: the six predicate stages applied in
the source's order to the analyzer's frame. -/
def get_filtered_trades (filters : Filters) (df0 : List Trade) : List Trade :=
  filterOnlyLosses filters.only_losses
    (filterProfitRange filters.profit_range
      (filterDateRange filters.date_range
        (filterStrategy filters.strategy
          (filterType filters.type
            (filterCurrencyPair filters.currency_pair df0)))))

/-- One entry of the local strategy catalog (StrategyStorage JSON): rule
text and the two timestamps, each possibly absent. -/
structure CatalogEntry where
  rules : String
  created_time : Option String
  last_edited_time : Option String
  deriving Repr, DecidableEq

/-- One value of the merged strategies dict of StrategyManager. -/
structure StratInfo where
  source : String
  rules : String
  created_time : Option String
  last_edited_time : Option String
  deriving Repr, DecidableEq

/-- The dict value built for a local-catalog strategy in
load_all_strategies. -/
def localToInfo (d : CatalogEntry) : StratInfo :=
  { source := "local", rules := d.rules, created_time := d.created_time
    last_edited_time := d.last_edited_time }

/-- The dict value built for a strategy found only in the trade history. -/
def sheetsInfo : StratInfo :=
  { source := "sheets", rules := "", created_time := none, last_edited_time := none }

/-- One iteration of the Google-Sheets loop of load_all_strategies: strip
the observed name, skip blank and nan, and add it only when the merged
dict does not already hold the key. -/
def addSheetStrategy (acc : List (String × StratInfo)) (name0 : String) :
    List (String × StratInfo) :=
  if pyStrip name0 ≠ "" ∧ pyLower (pyStrip name0) ≠ "nan" then
    if pyStrip name0 ∈ acc.map Prod.fst then acc
    else acc ++ [(pyStrip name0, sheetsInfo)]
  else acc

/-- StrategyManager.load_all_strategies: the merged dict (as an
association list in insertion order) seeded from the local catalog, then
extended with the distinct strategy values observed in the trade
history. -/
def load_all_strategies (localStrats : List (String × CatalogEntry))
    (sheetStrategies : List String) : List (String × StratInfo) :=
  sheetStrategies.foldl addSheetStrategy
    (localStrats.map (fun p => (p.1, localToInfo p.2)))

/-! Concrete fixtures used by counterexamples and witnesses. -/

/-- A trade whose net P&L is exactly zero. -/
def tradeZero : Trade :=
  { trade_id := 1, date := 1, hour := 10, net_profit_loss_jpy := 0, pips := 0
    currency_pair := "USDJPY", type := "buy", strategy := none }

/-- The metrics dict the source computes for the one-trade frame
[tradeZero]. -/
def metricsZero : Metrics :=
  { total_trades := 1, winning_trades := 0, losing_trades := 1, win_rate := 0
    profit_factor := PFValue.infinity, avg_pips := 0, max_drawdown := 0
    total_net_profit := 0, total_profit := 0, total_loss := 0 }

/-- A first losing trade. -/
def tradeLoss1 : Trade :=
  { trade_id := 2, date := 1, hour := 10, net_profit_loss_jpy := -50, pips := -5
    currency_pair := "USDJPY", type := "buy", strategy := none }

/-- A second, later losing trade. -/
def tradeLoss2 : Trade :=
  { trade_id := 3, date := 2, hour := 11, net_profit_loss_jpy := -30, pips := -3
    currency_pair := "EURUSD", type := "sell", strategy := none }

/-- A trade whose strategy cell holds the blank string. -/
def tradeBlankStrategy : Trade :=
  { trade_id := 4, date := 1, hour := 10, net_profit_loss_jpy := 0, pips := 0
    currency_pair := "USDJPY", type := "buy", strategy := some "" }

/-- A filters dict with every key absent. -/
def filtersNone : Filters :=
  { currency_pair := none, type := none, strategy := none, date_range := none
    profit_range := none, only_losses := none }

/-- A filters dict whose only predicate is a date range with start 5 after
end 3. -/
def filtersBadRange : Filters :=
  { currency_pair := none, type := none, strategy := none
    date_range := some (5, 3), profit_range := none, only_losses := none }

/-! Claims. -/

/-- C1, counterexample: at hour 23 the source's session bucketing returns
the London session, not the New York session the claim demands for the
22-24 overlap — in the Python if/elif chain the earlier London rule wins. -/
theorem C1_counterexample :
    get_market_session 23 = "ロンドン" ∧ "ロンドン" ≠ "ニューヨーク" := by
  exact ⟨rfl, by decide⟩

/-- Bucketing as the counterexample forces it to be amended: London keeps
hours 22 and 23 because its rule is tested first; the New York clause for
[22,24) is unreachable, New York covers only [0,6). -/
def marketSessionAmended (hour : Nat) : String :=
  if 9 ≤ hour ∧ hour < 15 then "東京"
  else if 16 ≤ hour ∧ hour < 24 then "ロンドン"
  else if hour < 6 then "ニューヨーク"
  else "その他"

/-- C1, amended: the session derived from the hour of start_time follows
the bucketing hour in [9,15) to Tokyo, hour in [16,24) to London — with
London, not New York, taking the overlap hours 22 and 23, the New York
clause for [22,24) being dead — hour in [0,6) to New York, any other hour
to Other. -/
theorem C1_market_session_amended :
    ∀ hour : Nat, get_market_session hour = marketSessionAmended hour := by
  intro h
  unfold get_market_session marketSessionAmended
  split_ifs <;> first | rfl | omega

/-- C2, counterexample: on the empty collection calculate_metrics returns
the empty dict (modelled none) — no total_trades, win_rate, profit_factor
or max_drawdown entry exists in the result, so the claimed zero-filled
result is not produced. -/
theorem C2_counterexample : (calculate_metrics ([] : List Trade)).isNone = true := rfl

/-- C2, amended: on the empty Trade Record collection calculate_metrics
returns normally with the empty dict — it never raises, but reports no
total_trades=0, win_rate=0, profit_factor or max_drawdown=0 entries; the
caller must treat the absent keys itself. -/
theorem C2_empty_metrics_amended : calculate_metrics ([] : List Trade) = none := rfl

/-- Evaluation of the metrics engine on the one-trade frame holding only
the zero-P&L trade. -/
lemma calc_metrics_tradeZero : calculate_metrics [tradeZero] = some metricsZero := by
  norm_num [calculate_metrics, tradeZero, metricsZero, sortByDate, insertByDate, winningCount,
    totalProfit, totalLoss, maxDrawdown, cumulativeProfit, cumsum, cumsumFrom, cummax,
    cummaxFrom, minList, is_win]

/-- C3, counterexample: on the single zero-P&L trade the source reports
profit_factor = +infinity although total_profit = 0 — the claimed
equivalence (infinity iff total_loss = 0 and total_profit > 0) fails,
as does the claimed fallback total_profit / total_loss, which is 0/0
here. -/
theorem C3_counterexample :
    calculate_metrics [tradeZero] = some metricsZero ∧
    metricsZero.profit_factor = PFValue.infinity ∧
    ¬ 0 < metricsZero.total_profit :=
  ⟨calc_metrics_tradeZero, rfl, by norm_num [metricsZero]⟩

/-- C3, amended: profit_factor is +infinity iff total_loss = 0 — with no
condition on total_profit — and whenever total_loss is nonzero it equals
total_profit / total_loss exactly. -/
theorem C3_profit_factor_amended (trades : List Trade) (m : Metrics)
    (h : calculate_metrics trades = some m) :
    (m.profit_factor = PFValue.infinity ↔ m.total_loss = 0) ∧
    (m.total_loss ≠ 0 →
      m.profit_factor = PFValue.value (m.total_profit / m.total_loss)) := by
  rw [calculate_metrics] at h
  by_cases he : trades.isEmpty
  · rw [if_pos he] at h; cases h
  · rw [if_neg he] at h
    have hm := (Option.some.inj h).symm
    subst hm
    dsimp only
    have h0 : (0 : Rat) ≤ totalLoss (sortByDate trades) := abs_nonneg _
    rcases eq_or_lt_of_le h0 with h1 | h1
    · rw [if_neg (by rw [← h1]; exact lt_irrefl 0)]
      constructor
      · simp [← h1]
      · intro hne; exact absurd h1.symm hne
    · rw [if_pos h1]
      constructor
      · constructor
        · intro hc
          exact PFValue.noConfusion hc
        · intro h2
          rw [h2] at h1
          exact absurd h1 (lt_irrefl 0)
      · intro _
        rfl

/-- C3, witness: the amended theorem applied to the concrete one-trade
frame. -/
theorem C3_amended_witness :
    (metricsZero.profit_factor = PFValue.infinity ↔ metricsZero.total_loss = 0) ∧
    (metricsZero.total_loss ≠ 0 →
      metricsZero.profit_factor =
        PFValue.value (metricsZero.total_profit / metricsZero.total_loss)) :=
  C3_profit_factor_amended [tradeZero] metricsZero calc_metrics_tradeZero

/-- Partition of a list's length by a Boolean predicate. -/
lemma filter_length_partition {α : Type} (p : α → Bool) (l : List α) :
    (l.filter p).length + (l.filter (fun a => !p a)).length = l.length := by
  induction l with
  | nil => rfl
  | cons a l ih => by_cases h : p a <;> simp [List.filter_cons, h] <;> omega

/-- C4, counterexample: the single zero-P&L trade is reported with
losing_trades = 1 — the source counts every non-winning trade, zero P&L
included, as a loss, so the zero trade is not counted as neither. -/
theorem C4_counterexample :
    calculate_metrics [tradeZero] = some metricsZero ∧
    tradeZero.net_profit_loss_jpy = 0 ∧ metricsZero.losing_trades = 1 :=
  ⟨calc_metrics_tradeZero, rfl, rfl⟩

/-- C4, amended: a zero-P&L trade is included in total_trades and counted
as a losing trade — losing_trades is exactly the count of trades with net
P&L not greater than 0 — so winning_trades + losing_trades = total_trades,
with equality, not the claimed strict possibility of shortfall. -/
theorem C4_zero_pnl_amended (trades : List Trade) (m : Metrics)
    (h : calculate_metrics trades = some m) :
    m.winning_trades + m.losing_trades = m.total_trades ∧
    m.losing_trades = ((sortByDate trades).filter (fun t => !is_win t)).length := by
  rw [calculate_metrics] at h
  by_cases he : trades.isEmpty
  · rw [if_pos he] at h; cases h
  · rw [if_neg he] at h
    have hm := (Option.some.inj h).symm
    subst hm
    dsimp only
    have hle : ((sortByDate trades).filter is_win).length ≤ (sortByDate trades).length :=
      List.length_filter_le _ _
    have hpart := filter_length_partition is_win (sortByDate trades)
    unfold winningCount
    constructor
    · omega
    · omega

/-- C4, witness: the amended theorem applied to the concrete one-trade
frame. -/
theorem C4_amended_witness :
    metricsZero.winning_trades + metricsZero.losing_trades = metricsZero.total_trades ∧
    metricsZero.losing_trades =
      ((sortByDate [tradeZero]).filter (fun t => !is_win t)).length :=
  C4_zero_pnl_amended [tradeZero] metricsZero calc_metrics_tradeZero

/-- The pair stage passes the frame through when the key is absent or set
to the sentinel. -/
lemma filterCurrencyPair_all (sel : Option String)
    (h : sel = none ∨ sel = some "すべて") (df : List Trade) :
    filterCurrencyPair sel df = df := by
  rcases h with h | h <;> subst h <;> simp [filterCurrencyPair]

/-- The type stage passes the frame through when the key is absent or set
to the sentinel. -/
lemma filterType_all (sel : Option String)
    (h : sel = none ∨ sel = some "すべて") (df : List Trade) :
    filterType sel df = df := by
  rcases h with h | h <;> subst h <;> simp [filterType]

/-- The strategy stage passes the frame through when the key is absent or
set to the sentinel. -/
lemma filterStrategy_all (sel : Option String)
    (h : sel = none ∨ sel = some "すべて") (df : List Trade) :
    filterStrategy sel df = df := by
  rcases h with h | h <;> subst h <;> simp [filterStrategy]

/-- The profit-range stage of the engine maps the empty frame to itself. -/
lemma filterProfitRange_nil (sel : Option (Rat × Rat)) :
    filterProfitRange sel [] = [] := by
  cases sel <;> simp [filterProfitRange]

/-- The only-losses stage of the engine maps the empty frame to itself. -/
lemma filterOnlyLosses_nil (sel : Option Bool) :
    filterOnlyLosses sel [] = [] := by
  cases sel with
  | none => rfl
  | some b => cases b <;> simp [filterOnlyLosses]

/-- C5, counterexample: a filter specification whose date range has
start 5 after end 3 raises nothing — get_filtered_trades runs the scan
and returns the ordinary empty frame. -/
theorem C5_counterexample :
    get_filtered_trades filtersBadRange [tradeZero] = [] := by
  simp [get_filtered_trades, filtersBadRange, filterCurrencyPair, filterType,
    filterStrategy, filterDateRange, filterProfitRange, filterOnlyLosses, tradeZero]

/-- C5, amended: a date_range with start > end is accepted without any
validation error; the scan proceeds, no row satisfies the inclusive range
predicate, and the engine silently returns the empty result. -/
theorem C5_invalid_range_amended (trades : List Trade) (f : Filters) (s e : Int)
    (hdr : f.date_range = some (s, e)) (hlt : e < s) :
    get_filtered_trades f trades = [] := by
  rw [get_filtered_trades, hdr]
  simp only [filterDateRange]
  rw [List.filter_eq_nil_iff.mpr (fun t _ => by simp; omega)]
  rw [filterProfitRange_nil, filterOnlyLosses_nil]

/-- C5, witness: the amended theorem applied to a concrete frame and the
concrete invalid range (5, 3). -/
theorem C5_amended_witness : get_filtered_trades filtersBadRange [tradeLoss1] = [] :=
  C5_invalid_range_amended [tradeLoss1] filtersBadRange 5 3 rfl (by norm_num)

/-- Inserting a trade into a list is a permutation of consing it. -/
lemma insertByDate_perm (t : Trade) (l : List Trade) :
    (insertByDate t l).Perm (t :: l) := by
  induction l with
  | nil => exact List.Perm.refl _
  | cons u us ih =>
      simp only [insertByDate]
      by_cases h : t.date ≤ u.date
      · rw [if_pos h]
      · rw [if_neg h]
        exact (ih.cons u).trans (List.Perm.swap t u us)

/-- The date sort of _prepare_data permutes the frame's rows. -/
lemma sortByDate_perm (l : List Trade) : (sortByDate l).Perm l := by
  induction l with
  | nil => exact List.Perm.refl _
  | cons t ts ih =>
      exact (insertByDate_perm t (sortByDate ts)).trans (ih.cons t)

/-- C9, confirmed: with every categorical predicate absent or set to the
sentinel すべて and date_range, profit_range and only_losses unset, the
filter engine returns the analyzer's frame unchanged — the same rows as
the input collection, up to the date sort's reordering. -/
theorem C9_no_predicates (trades : List Trade) (f : Filters)
    (h1 : f.currency_pair = none ∨ f.currency_pair = some "すべて")
    (h2 : f.type = none ∨ f.type = some "すべて")
    (h3 : f.strategy = none ∨ f.strategy = some "すべて")
    (h4 : f.date_range = none) (h5 : f.profit_range = none)
    (h6 : f.only_losses = none) :
    (get_filtered_trades f (sortByDate trades)).Perm trades := by
  have hid : get_filtered_trades f (sortByDate trades) = sortByDate trades := by
    rw [get_filtered_trades, h4, h5, h6]
    rw [filterCurrencyPair_all _ h1, filterType_all _ h2, filterStrategy_all _ h3]
    rfl
  rw [hid]
  exact sortByDate_perm trades

/-- C9, witness: the empty filter specification applied to the concrete
one-trade frame returns its rows. -/
theorem C9_witness :
    (get_filtered_trades filtersNone (sortByDate [tradeZero])).Perm [tradeZero] :=
  C9_no_predicates [tradeZero] filtersNone (Or.inl rfl) (Or.inl rfl) (Or.inl rfl)
    rfl rfl rfl

/-- On a non-decreasing tail whose previous value is the running maximum,
the running maximum reproduces the tail. -/
lemma cummaxFrom_of_chain (l : List Rat) :
    ∀ m : Rat, List.Chain' (· ≤ ·) (m :: l) → cummaxFrom m l = l := by
  induction l with
  | nil => intro m _; rfl
  | cons x xs ih =>
      intro m hc
      have hmx : m ≤ x := (List.chain'_cons.mp hc).1
      simp only [cummaxFrom, max_eq_right hmx]
      rw [ih x (List.chain'_cons.mp hc).2]

/-- The running maximum of a non-decreasing series is the series itself. -/
lemma cummax_of_chain (l : List Rat) (h : List.Chain' (· ≤ ·) l) : cummax l = l := by
  cases l with
  | nil => rfl
  | cons x xs => simp only [cummax]; rw [cummaxFrom_of_chain xs x h]

/-- A series subtracted from itself pointwise is all zero. -/
lemma zipWith_sub_self (l : List Rat) :
    List.zipWith (fun a b => a - b) l l = List.replicate l.length 0 := by
  induction l with
  | nil => rfl
  | cons x xs ih => simp [List.replicate, ih]

/-- The minimum of an all-zero series is zero. -/
lemma minList_replicate_zero (n : Nat) : minList (List.replicate n 0) = 0 := by
  cases n with
  | zero => rfl
  | succ k =>
      show (List.replicate k (0 : Rat)).foldl min 0 = 0
      induction k with
      | zero => rfl
      | succ j ih => simpa [List.replicate, min_self] using ih

/-- C8, confirmed: the reported max_drawdown is never negative, and it is
exactly 0 whenever the cumulative net P&L series over the date-sorted
trades is monotonically non-decreasing. -/
theorem C8_max_drawdown (trades : List Trade) (m : Metrics)
    (h : calculate_metrics trades = some m) :
    0 ≤ m.max_drawdown ∧
    (List.Chain' (· ≤ ·) (cumulativeProfit (sortByDate trades)) →
      m.max_drawdown = 0) := by
  rw [calculate_metrics] at h
  by_cases he : trades.isEmpty
  · rw [if_pos he] at h; cases h
  · rw [if_neg he] at h
    have hm := (Option.some.inj h).symm
    subst hm
    dsimp only
    constructor
    · exact abs_nonneg _
    · intro hchain
      rw [maxDrawdown]
      rw [cummax_of_chain _ hchain, zipWith_sub_self, minList_replicate_zero, abs_zero]

/-- C8, witness: the theorem applied to the concrete one-trade frame,
whose one-point cumulative series is trivially non-decreasing. -/
theorem C8_witness : 0 ≤ metricsZero.max_drawdown ∧ metricsZero.max_drawdown = 0 := by
  have h := C8_max_drawdown [tradeZero] metricsZero calc_metrics_tradeZero
  exact ⟨h.1, h.2 (by simp [cumulativeProfit, sortByDate, insertByDate, cumsum, cumsumFrom,
    tradeZero])⟩

/-- The date sort leaves an already chronologically sorted frame
unchanged. -/
lemma sortByDate_eq_of_sorted (l : List Trade)
    (h : List.Pairwise (fun a b => a.date ≤ b.date) l) : sortByDate l = l := by
  induction l with
  | nil => rfl
  | cons x xs ih =>
      have h1 := List.pairwise_cons.mp h
      show insertByDate x (sortByDate xs) = x :: xs
      rw [ih h1.2]
      cases xs with
      | nil => rfl
      | cons y ys => simp [insertByDate, h1.1 y (by simp)]

/-- The scan over a run of losing trades only grows the current streak:
the counter advances by the run's length, the loss sum by the run's
absolute net P&L, and the maximum fields stay put. -/
lemma streak_foldl_all_losses (l : List Trade) :
    ∀ s : StreakState, (∀ t ∈ l, is_win t = false) →
      l.foldl streakStep s =
        { s with
            current_consecutive := s.current_consecutive + l.length
            current_loss_amount :=
              s.current_loss_amount + (l.map (fun t => |t.net_profit_loss_jpy|)).sum
            current_streak := s.current_streak ++ l } := by
  induction l with
  | nil => intro s _; simp
  | cons t ts ih =>
      intro s hall
      have ht : is_win t = false := hall t (by simp)
      rw [List.foldl_cons]
      have hstep : streakStep s t =
          { s with
              current_consecutive := s.current_consecutive + 1
              current_loss_amount := s.current_loss_amount + |t.net_profit_loss_jpy|
              current_streak := s.current_streak ++ [t] } := by
        rw [streakStep, ht]
        simp
      rw [hstep, ih _ (fun u hu => hall u (by simp [hu]))]
      simp [List.append_assoc, add_assoc]
      omega

/-- Closing a streak longer than the recorded maximum installs its length
and loss sum as the reported maximum fields. -/
lemma closeStreak_new_max (s : StreakState) (h1 : 0 < s.current_consecutive)
    (h2 : s.max_consecutive < s.current_consecutive) :
    (closeStreak s).max_consecutive = s.current_consecutive ∧
    (closeStreak s).max_loss_amount = s.current_loss_amount := by
  rw [closeStreak, if_pos h1]
  by_cases h3 : 3 ≤ s.current_consecutive <;>
    simp [h3, updateMax, if_pos h2]

/-- C6, confirmed: on a chronologically sorted all-loss sequence the
detector reports max_consecutive_losses = n and max_loss_amount = the sum
of the absolute net P&L, and processing any winning trade resets the
running consecutive-loss counter to 0. -/
theorem C6_all_losses (l : List Trade)
    (hsorted : List.Pairwise (fun a b => a.date ≤ b.date) l)
    (hloss : ∀ t ∈ l, is_win t = false) :
    (get_consecutive_losses l).1 = l.length ∧
    (get_consecutive_losses l).2.1 = (l.map (fun t => |t.net_profit_loss_jpy|)).sum ∧
    ∀ (s : StreakState) (w : Trade), is_win w = true →
      (streakStep s w).current_consecutive = 0 := by
  have hreset : ∀ (s : StreakState) (w : Trade), is_win w = true →
      (streakStep s w).current_consecutive = 0 := by
    intro s w hw
    rw [streakStep, hw]
    simp
  cases hl : l with
  | nil => exact ⟨rfl, rfl, hreset⟩
  | cons x xs =>
      rw [← hl]
      have hne : l.isEmpty = false := by rw [hl]; rfl
      rw [get_consecutive_losses, if_neg (by rw [hne]; simp)]
      rw [sortByDate_eq_of_sorted l hsorted]
      rw [streak_foldl_all_losses l initStreakState hloss]
      have hpos : 0 < l.length := by rw [hl]; simp
      have hfields :=
        closeStreak_new_max
          { initStreakState with
              current_consecutive := initStreakState.current_consecutive + l.length
              current_loss_amount := initStreakState.current_loss_amount +
                (l.map (fun t => |t.net_profit_loss_jpy|)).sum
              current_streak := initStreakState.current_streak ++ l }
          (by simpa [initStreakState] using hpos)
          (by simpa [initStreakState] using hpos)
      refine ⟨?_, ?_, hreset⟩
      · simpa [initStreakState] using hfields.1
      · simpa [initStreakState] using hfields.2

/-- C6, witness: the theorem applied to the concrete two-loss sequence;
the detector reports the streak length 2 and the loss sum 80. -/
theorem C6_witness :
    (get_consecutive_losses [tradeLoss1, tradeLoss2]).1 = 2 ∧
    (get_consecutive_losses [tradeLoss1, tradeLoss2]).2.1 = 80 := by
  have h := C6_all_losses [tradeLoss1, tradeLoss2]
    (by simp [List.pairwise_cons, tradeLoss1, tradeLoss2])
    (by intro t ht
        simp only [List.mem_cons, List.mem_singleton, List.not_mem_nil, or_false] at ht
        rcases ht with rfl | rfl <;>
          simp [is_win, tradeLoss1, tradeLoss2, decide_eq_false_iff_not])
  refine ⟨by simpa using h.1, ?_⟩
  rw [h.2.1]
  norm_num [tradeLoss1, tradeLoss2]

/-- C7, confirmed: when every trade's strategy cell is absent, blank or
the token nan, the strategy aggregation returns the empty frame, while the
metrics engine still counts every one of those trades in total_trades. -/
theorem C7_blank_strategies (trades : List Trade)
    (hall : ∀ t ∈ trades, validStrategyRow t = false) :
    analyze_by_strategy trades = [] ∧
    ∀ m, calculate_metrics trades = some m → m.total_trades = trades.length := by
  constructor
  · have hfil : (sortByDate trades).filter validStrategyRow = [] :=
      List.filter_eq_nil_iff.mpr (fun t ht => by
        have hv := hall t ((sortByDate_perm trades).mem_iff.mp ht)
        simp [hv])
    simp [analyze_by_strategy, hfil]
  · intro m hm
    rw [calculate_metrics] at hm
    by_cases he : trades.isEmpty
    · rw [if_pos he] at hm; cases hm
    · rw [if_neg he] at hm
      have h2 := (Option.some.inj hm).symm
      subst h2
      dsimp only
      exact (sortByDate_perm trades).length_eq

/-- Evaluation of the metrics engine on the one-trade frame whose trade
has a blank strategy cell: the metrics equal those of the zero trade. -/
lemma calc_metrics_tradeBlank :
    calculate_metrics [tradeBlankStrategy] = some metricsZero := by
  norm_num [calculate_metrics, tradeBlankStrategy, metricsZero, sortByDate, insertByDate,
    winningCount, totalProfit, totalLoss, maxDrawdown, cumulativeProfit, cumsum, cumsumFrom,
    cummax, cummaxFrom, minList, is_win]

/-- C7, witness: the concrete frame of one blank-strategy trade yields an
empty strategy aggregation but total_trades equal to the frame's length. -/
theorem C7_witness :
    analyze_by_strategy [tradeBlankStrategy] = [] ∧
    metricsZero.total_trades = [tradeBlankStrategy].length := by
  have h := C7_blank_strategies [tradeBlankStrategy]
    (by intro t ht
        simp only [List.mem_singleton] at ht
        subst ht
        decide)
  exact ⟨h.1, h.2 metricsZero calc_metrics_tradeBlank⟩

/-- A lookup hit in the front part of an association list survives an
append. -/
lemma lookup_append_of_some {β : Type} (l l' : List (String × β)) (a : String) (v : β)
    (h : List.lookup a l = some v) : List.lookup a (l ++ l') = some v := by
  induction l with
  | nil => simp [List.lookup] at h
  | cons p ps ih =>
      obtain ⟨k, w⟩ := p
      rw [List.cons_append]
      cases hab : a == k
      · simp only [List.lookup, hab] at h ⊢
        exact ih h
      · simp only [List.lookup, hab] at h ⊢
        exact h

/-- A lookup miss in the front part of an association list defers to the
back part. -/
lemma lookup_append_of_none {β : Type} (l l' : List (String × β)) (a : String)
    (h : List.lookup a l = none) :
    List.lookup a (l ++ l') = List.lookup a l' := by
  induction l with
  | nil => rfl
  | cons p ps ih =>
      obtain ⟨k, w⟩ := p
      rw [List.cons_append]
      cases hab : a == k
      · simp only [List.lookup, hab] at h ⊢
        exact ih h
      · simp only [List.lookup, hab] at h
        exact Option.noConfusion h

/-- Lookup misses every association list whose keys avoid the probe. -/
lemma lookup_eq_none_of_not_mem {β : Type} (l : List (String × β)) (a : String)
    (h : a ∉ l.map Prod.fst) : List.lookup a l = none := by
  induction l with
  | nil => rfl
  | cons p ps ih =>
      obtain ⟨k, w⟩ := p
      simp only [List.map_cons, List.mem_cons] at h
      push_neg at h
      cases hab : a == k
      · simp only [List.lookup, hab]
        exact ih h.2
      · exact absurd (eq_of_beq hab) h.1

/-- One sheet-loop iteration never rebinds a key the merged dict already
holds. -/
lemma addSheet_preserves (acc : List (String × StratInfo)) (nm n : String)
    (v : StratInfo) (h : List.lookup n acc = some v) :
    List.lookup n (addSheetStrategy acc nm) = some v := by
  rw [addSheetStrategy]
  by_cases h1 : pyStrip nm ≠ "" ∧ pyLower (pyStrip nm) ≠ "nan"
  · rw [if_pos h1]
    by_cases h2 : pyStrip nm ∈ acc.map Prod.fst
    · rw [if_pos h2]; exact h
    · rw [if_neg h2]; exact lookup_append_of_some _ _ _ _ h
  · rw [if_neg h1]; exact h

/-- The whole sheet loop never rebinds a key the merged dict already
holds. -/
lemma foldl_addSheet_preserves (sheets : List String) :
    ∀ acc n v, List.lookup n acc = some v →
      List.lookup n (sheets.foldl addSheetStrategy acc) = some v := by
  induction sheets with
  | nil => intro acc n v h; exact h
  | cons s ss ih =>
      intro acc n v h
      exact ih _ _ _ (addSheet_preserves _ _ _ _ h)

/-- One sheet-loop iteration for a different name keeps a key absent. -/
lemma addSheet_keys_not_mem (acc : List (String × StratInfo)) (nm n : String)
    (hn : n ∉ acc.map Prod.fst) (hs : pyStrip nm ≠ n) :
    n ∉ (addSheetStrategy acc nm).map Prod.fst := by
  rw [addSheetStrategy]
  by_cases h1 : pyStrip nm ≠ "" ∧ pyLower (pyStrip nm) ≠ "nan"
  · rw [if_pos h1]
    by_cases h2 : pyStrip nm ∈ acc.map Prod.fst
    · rw [if_pos h2]; exact hn
    · rw [if_neg h2]
      intro hmem
      rcases List.mem_map.mp hmem with ⟨p, hp, hfst⟩
      rcases List.mem_append.mp hp with hp | hp
      · exact hn (List.mem_map.mpr ⟨p, hp, hfst⟩)
      · rcases List.mem_singleton.mp hp with rfl
        exact hs hfst
  · rw [if_neg h1]; exact hn

/-- A stripped, non-blank, non-nan name occurring among the sheet values
and absent from the merged dict ends up bound to the sheets entry. -/
lemma foldl_addSheet_adds (sheets : List String) :
    ∀ acc n, n ∈ sheets → pyStrip n = n → n ≠ "" → pyLower n ≠ "nan" →
      n ∉ acc.map Prod.fst →
      List.lookup n (sheets.foldl addSheetStrategy acc) = some sheetsInfo := by
  induction sheets with
  | nil => intro acc n h; cases h
  | cons s ss ih =>
      intro acc n hmem htrim hne hnan hnotin
      rw [List.foldl_cons]
      by_cases hsn : pyStrip s = n
      · have hcond : pyStrip s ≠ "" ∧ pyLower (pyStrip s) ≠ "nan" := by
          rw [hsn]; exact ⟨hne, hnan⟩
        have hstep : addSheetStrategy acc s = acc ++ [(n, sheetsInfo)] := by
          rw [addSheetStrategy, if_pos hcond, hsn, if_neg hnotin]
        rw [hstep]
        apply foldl_addSheet_preserves
        rw [lookup_append_of_none _ _ _ (lookup_eq_none_of_not_mem acc n hnotin)]
        simp [List.lookup]
      · have hmem' : n ∈ ss := by
          rcases List.mem_cons.mp hmem with h | h
          · subst h
            exact absurd htrim hsn
          · exact h
        exact ih _ n hmem' htrim hne hnan (addSheet_keys_not_mem acc s n hnotin hsn)

/-- The keys of the merged dict's local seed are the catalog's keys. -/
lemma keys_map_localToInfo (localStrats : List (String × CatalogEntry)) :
    (localStrats.map (fun p => (p.1, localToInfo p.2))).map Prod.fst =
      localStrats.map Prod.fst := by
  induction localStrats with
  | nil => rfl
  | cons p ps ih => simp [ih]

/-- With distinct catalog keys, looking a catalog name up in the local
seed yields its catalog entry. -/
lemma lookup_map_local (localStrats : List (String × CatalogEntry)) (n : String)
    (d : CatalogEntry) (hnd : (localStrats.map Prod.fst).Nodup)
    (hmem : (n, d) ∈ localStrats) :
    List.lookup n (localStrats.map (fun p => (p.1, localToInfo p.2))) =
      some (localToInfo d) := by
  induction localStrats with
  | nil => cases hmem
  | cons p ps ih =>
      obtain ⟨k, w⟩ := p
      rw [List.map_cons] at hnd
      have hnd' := List.nodup_cons.mp hnd
      rcases List.mem_cons.mp hmem with h | h
      · have h1 : n = k := congrArg Prod.fst h
        have h2 : d = w := congrArg Prod.snd h
        subst h1; subst h2
        simp [List.lookup]
      · have hk : n ≠ k := by
          intro he
          subst he
          exact hnd'.1 (List.mem_map.mpr ⟨(n, d), h, rfl⟩)
        have hb : (n == k) = false := beq_eq_false_iff_ne.mpr hk
        simp only [List.map_cons, List.lookup, hb]
        exact ih hnd'.2 h

/-- C10, confirmed: when a strategy name is both a catalog key and an
observed history value, the merged registry keeps the catalog entry with
its rule text and timestamps — the history-derived entry never overwrites
it — and a stripped, non-blank, non-nan name found only in the history is
added with empty rule text. -/
theorem C10_registry_merge (localStrats : List (String × CatalogEntry))
    (sheets : List String) (hnd : (localStrats.map Prod.fst).Nodup) :
    (∀ n d, (n, d) ∈ localStrats →
        List.lookup n (load_all_strategies localStrats sheets) =
          some (localToInfo d)) ∧
    (∀ n, n ∈ sheets → pyStrip n = n → n ≠ "" → pyLower n ≠ "nan" →
        n ∉ localStrats.map Prod.fst →
        List.lookup n (load_all_strategies localStrats sheets) = some sheetsInfo) := by
  constructor
  · intro n d hmem
    rw [load_all_strategies]
    exact foldl_addSheet_preserves sheets _ n _ (lookup_map_local localStrats n d hnd hmem)
  · intro n hmem htrim hne hnan hnotin
    rw [load_all_strategies]
    apply foldl_addSheet_adds sheets _ n hmem htrim hne hnan
    rw [keys_map_localToInfo]
    exact hnotin

/-- A concrete catalog entry for the name A. -/
def catalogA : CatalogEntry :=
  { rules := "breakout entry rules", created_time := some "2024-01-01"
    last_edited_time := some "2024-06-01" }

/-- C10, witness: with catalog entry A and history values A and B, the
merge keeps A's catalog entry and adds B with empty rule text. -/
theorem C10_witness :
    List.lookup "A" (load_all_strategies [("A", catalogA)] ["A", "B"]) =
      some (localToInfo catalogA) ∧
    List.lookup "B" (load_all_strategies [("A", catalogA)] ["A", "B"]) =
      some sheetsInfo := by
  have h := C10_registry_merge [("A", catalogA)] ["A", "B"] (by simp)
  exact ⟨h.1 "A" catalogA (by simp),
    h.2 "B" (by simp) (by decide) (by decide) (by decide) (by decide)⟩

end FX
